import Mathlib

/-!
Verification of the `float-parts` Rust crate (`src/lib.rs`).

The crate decomposes an IEEE-754 float into `(sigbits, exp, sign)` via the
trait `ToFloatParts`, whose method body is generated by the
`to_float_parts!` macro, instantiated for `f32` and `f64`.

We embed the computation shallowly: a float is represented by its bit
pattern `bits : Nat` (the result of Rust's `to_bits`, so `bits < 2^ws`
where `ws` is the storage width), machine integers become `Nat`/`Int`.
All intermediate values provably fit the source's integer widths
(`u32`/`u64`/`i8`/`i16`), which the checked model
`toFloatPartsCheckedCore` below makes explicit, so the unchecked model
needs no wrap-around `% 2^ws`.
-/

/-- Rust `mask!` macro: `(1 << b) - 1`. -/
def mask (b : Nat) : Nat := (1 <<< b) - 1

/-- Result triple of `to_float_parts`: `(Self::SigBits, Self::Exp, i8)`.
`sigbits` is an unsigned machine integer (modelled as `Nat`), `exp` a
signed one (`i16`, modelled as `Int`), the sign is `i8` (modelled as
`Int`). -/
structure FloatParts where
  sigbits : Nat
  exp : Int
  sign : Int
deriving DecidableEq

/-- Body of the Rust macro `to_float_parts!` (src/lib.rs lines 82–106),
parameterized exactly by what varies between instantiations: `ws` is
`8 * size_of::<S>()`, `ns` is `Self::NUM_SIG_BITS`, `ne` is
`Self::NUM_EXP_BITS`, and the two constants `EXP_ADJUST` and
`EXP_INF_NAN` of the implementing type. -/
def toFloatPartsCore (ws ns ne : Nat) (expAdjust expInfNan : Int)
    (bits : Nat) : FloatParts :=
  let sign : Int := 1 - (((bits >>> (ws - 2)) &&& 2 : Nat) : Int)
  let exp : Nat := (bits >>> (ns - 1)) &&& mask ne
  let sigbits : Nat := bits &&& mask (ns - 1)
  if exp = mask ne then
    ⟨sigbits, expInfNan, sign⟩
  else
    let is_denorm : Bool := exp == 0
    let exp2 : Int := (exp : Int) - expAdjust
    let sigbits2 : Nat := sigbits <<< (if is_denorm then 1 else 0)
    let sigbits3 : Nat := sigbits2 ||| ((if is_denorm then 0 else 1) <<< ns)
    ⟨sigbits3, exp2, sign⟩

/-- Value-range checked model of the same macro body. Every Rust
operation in `to_float_parts` that can panic (in debug builds) is
modelled fallibly: shifts panic when the shift amount reaches the
integer's bit width, and signed subtraction panics on overflow of the
result type (`i8` for the sign, `i16 = Self::Exp` for the exponent).
Shift results wrap to the operand width (`checkedShl` keeps the
`% 2^w` that Rust's `<<` performs on the value). `as`-casts never
panic in Rust and are not checked. -/
def checkedShl (w x n : Nat) : Option Nat :=
  if n < w then some ((x <<< n) % 2 ^ w) else none

/-- Checked logical right shift on a `w`-bit unsigned integer:
panics iff the shift amount reaches the bit width. -/
def checkedShr (w x n : Nat) : Option Nat :=
  if n < w then some (x >>> n) else none

/-- Checked subtraction on a `w`-bit signed integer: `none` exactly
when the mathematical result overflows (Rust debug-build panic). -/
def checkedSub (w : Nat) (a b : Int) : Option Int :=
  if -(2 ^ (w - 1) : Int) ≤ a - b ∧ a - b < (2 ^ (w - 1) : Int) then
    some (a - b)
  else none

/-- The macro body of `to_float_parts!` with every possibly-panicking
operation routed through the checked models above, in source order:
`bits >> (ws - 2)`, the `i8` subtraction `1 - …`, `bits >> (ns - 1)`,
the `i16` subtraction `exp as E - Self::EXP_ADJUST`,
`sigbits <<= is_denorm as u32`, and `(!is_denorm as S) << ns`. -/
def toFloatPartsCheckedCore (ws ns ne : Nat) (expAdjust expInfNan : Int)
    (bits : Nat) : Option FloatParts := do
  let t ← checkedShr ws bits (ws - 2)
  let sign ← checkedSub 8 1 ((t &&& 2 : Nat) : Int)
  let t2 ← checkedShr ws bits (ns - 1)
  let exp : Nat := t2 &&& mask ne
  let sigbits : Nat := bits &&& mask (ns - 1)
  if exp = mask ne then
    return ⟨sigbits, expInfNan, sign⟩
  else
    let is_denorm : Bool := exp == 0
    let exp2 ← checkedSub 16 (exp : Int) expAdjust
    let sigbits2 ← checkedShl ws sigbits (if is_denorm then 1 else 0)
    let hi ← checkedShl ws (if is_denorm then 0 else 1) ns
    return ⟨sigbits2 ||| hi, exp2, sign⟩

/-- Rust float negation `-v` flips the sign bit of the IEEE-754
representation and nothing else: `(-v).to_bits() = v.to_bits() ^ (1 << (ws-1))`.
This models the `-v` of the spec's sign round-trip property at the bit
level. -/
def negBits (ws bits : Nat) : Nat := bits ^^^ (1 <<< (ws - 1))

namespace F32

/-- `f32::MANTISSA_DIGITS`. -/
def NUM_SIG_BITS : Nat := 24

/-- `<f32 as ToFloatParts>::NUM_EXP_BITS`. -/
def NUM_EXP_BITS : Nat := 8

/-- `<f32 as ToFloatParts>::EXP_ADJUST =
mask!(NUM_EXP_BITS - 1) as i16 - NUM_SIG_BITS as i16 + 1` (the same
formula as the trait's default). -/
def EXP_ADJUST : Int := (mask (NUM_EXP_BITS - 1) : Int) - (NUM_SIG_BITS : Int) + 1

/-- `<f32 as ToFloatParts>::EXP_MAX = mask!(NUM_EXP_BITS) - 1 - EXP_ADJUST`. -/
def EXP_MAX : Int := (mask NUM_EXP_BITS : Int) - 1 - EXP_ADJUST

/-- `<f32 as ToFloatParts>::EXP_INF_NAN = EXP_MAX + 1`. -/
def EXP_INF_NAN : Int := EXP_MAX + 1

/-- `<f32 as ToFloatParts>::EXP_MIN = -EXP_ADJUST`. -/
def EXP_MIN : Int := -EXP_ADJUST

/-- `f32::to_float_parts` on the bit pattern of the input:
the macro instantiated with `S = u32` (so `ws = 32`). -/
def to_float_parts (bits : Nat) : FloatParts :=
  toFloatPartsCore 32 NUM_SIG_BITS NUM_EXP_BITS EXP_ADJUST EXP_INF_NAN bits

end F32

namespace F64

/-- `f64::MANTISSA_DIGITS`. -/
def NUM_SIG_BITS : Nat := 53

/-- `<f64 as ToFloatParts>::NUM_EXP_BITS`. -/
def NUM_EXP_BITS : Nat := 11

/-- `<f64 as ToFloatParts>::EXP_ADJUST =
mask!(NUM_EXP_BITS - 1) as i16 + NUM_SIG_BITS as i16 - 1`.
Note the impl overrides the trait default with `+ ... - 1`,
not `- ... + 1`. -/
def EXP_ADJUST : Int := (mask (NUM_EXP_BITS - 1) : Int) + (NUM_SIG_BITS : Int) - 1

/-- `<f64 as ToFloatParts>::EXP_MAX = mask!(NUM_EXP_BITS) - 1 - EXP_ADJUST`. -/
def EXP_MAX : Int := (mask NUM_EXP_BITS : Int) - 1 - EXP_ADJUST

/-- `<f64 as ToFloatParts>::EXP_INF_NAN = EXP_MAX + 1`. -/
def EXP_INF_NAN : Int := EXP_MAX + 1

/-- `<f64 as ToFloatParts>::EXP_MIN = -EXP_ADJUST`. -/
def EXP_MIN : Int := -EXP_ADJUST

/-- `f64::to_float_parts` on the bit pattern of the input:
the macro instantiated with `S = u64` (so `ws = 64`). -/
def to_float_parts (bits : Nat) : FloatParts :=
  toFloatPartsCore 64 NUM_SIG_BITS NUM_EXP_BITS EXP_ADJUST EXP_INF_NAN bits

/-- The checked (panic-modelling) variant of `F64.to_float_parts`. -/
def to_float_parts_checked (bits : Nat) : Option FloatParts :=
  toFloatPartsCheckedCore 64 NUM_SIG_BITS NUM_EXP_BITS EXP_ADJUST EXP_INF_NAN bits

end F64

/-- The checked (panic-modelling) variant of `F32.to_float_parts`. -/
def F32.to_float_parts_checked (bits : Nat) : Option FloatParts :=
  toFloatPartsCheckedCore 32 NUM_SIG_BITS NUM_EXP_BITS EXP_ADJUST EXP_INF_NAN bits

/-- Exact IEEE-754 binary32 value of a bit pattern (reference
semantics, used to state what the float input `v` *is*; only finite
patterns — raw exponent field below `mask 8` — are given a value this
way). A normal pattern with fields `(s, e, f)` denotes
`±(1 + f/2^23) · 2^(e-127) = ±(2^23 + f) · 2^e / 2^150`, a denormal
`±f · 2^(1-127-23) = ±f / 2^149`. -/
def floatVal32 (bits : Nat) : ℚ :=
  let s : ℚ := if bits.testBit 31 then -1 else 1
  let e : Nat := (bits >>> 23) &&& mask 8
  let f : Nat := bits &&& mask 23
  if e = 0 then s * (f : ℚ) / ((2 ^ 149 : Nat) : ℚ)
  else s * (((2 ^ 23 + f) * 2 ^ e : Nat) : ℚ) / ((2 ^ 150 : Nat) : ℚ)

/-- Exact IEEE-754 binary64 value of a bit pattern (reference
semantics; finite patterns only). A normal pattern with fields
`(s, e, f)` denotes `±(1 + f/2^52) · 2^(e-1023) = ±(2^52 + f) · 2^e / 2^1075`,
a denormal `±f · 2^(1-1023-52) = ±f / 2^1074`. -/
def floatVal64 (bits : Nat) : ℚ :=
  let s : ℚ := if bits.testBit 63 then -1 else 1
  let e : Nat := (bits >>> 52) &&& mask 11
  let f : Nat := bits &&& mask 52
  if e = 0 then s * (f : ℚ) / ((2 ^ 1074 : Nat) : ℚ)
  else s * (((2 ^ 52 + f) * 2 ^ e : Nat) : ℚ) / ((2 ^ 1075 : Nat) : ℚ)

/-- The exact rational `sign × sigbits × 2^exp` reconstructed from a
decomposed triple — the quantity the spec's reconstruction invariant
compares against the input value. -/
def reconQ (p : FloatParts) : ℚ :=
  (p.sign : ℚ) * (p.sigbits : ℚ) * (2 : ℚ) ^ p.exp

theorem mask_eq (b : Nat) : mask b = 2 ^ b - 1 := by
  simp [mask, Nat.one_shiftLeft]

theorem and_two_of_lt {s t : Nat} (hs : s < 2) (ht : t < 2) :
    (2 * s + t) &&& 2 = 2 * s := by
  interval_cases s <;> interval_cases t <;> decide

theorem or_two_pow_of_lt {r n : Nat} (h : r < 2 ^ n) : r ||| 2 ^ n = 2 ^ n + r := by
  apply Nat.eq_of_testBit_eq
  intro j
  rcases Nat.lt_trichotomy j n with hj | hj | hj
  · rw [Nat.testBit_or, Nat.testBit_two_pow_add_gt hj,
      Nat.testBit_two_pow_of_ne (Nat.ne_of_gt hj), Bool.or_false]
  · subst hj
    rw [Nat.testBit_or, Nat.testBit_two_pow_add_eq, Nat.testBit_lt_two_pow h,
      Nat.testBit_two_pow_self, Bool.or_true, Bool.not_false]
  · have e1 : 2 ^ n + r < 2 ^ (n + 1) := by rw [Nat.pow_succ]; omega
    have e2 : 2 ^ (n + 1) ≤ 2 ^ j := Nat.pow_le_pow_right (by omega) (by omega)
    have e3 : r < 2 ^ j := by
      have := Nat.pow_le_pow_right (show 0 < 2 by omega) (Nat.le_of_lt hj)
      omega
    rw [Nat.testBit_or, Nat.testBit_lt_two_pow e3,
      Nat.testBit_lt_two_pow (by omega : 2 ^ n + r < 2 ^ j),
      Nat.testBit_two_pow_of_ne (by omega : n ≠ j), Bool.or_false]

/-- `toFloatPartsCore` unfolded, with the three bit-field extractions
abstracted into hypotheses. -/
theorem toFloatPartsCore_eq (ws ns ne : Nat) (ea ei : Int) (bits sgn ex sg : Nat)
    (h1 : (bits >>> (ws - 2)) &&& 2 = sgn)
    (h2 : (bits >>> (ns - 1)) &&& mask ne = ex)
    (h3 : bits &&& mask (ns - 1) = sg) :
    toFloatPartsCore ws ns ne ea ei bits =
      if ex = mask ne then ⟨sg, ei, 1 - (sgn : Int)⟩
      else ⟨(sg <<< (if ex == 0 then 1 else 0)) |||
              ((if ex == 0 then 0 else 1) <<< ns),
            (ex : Int) - ea, 1 - (sgn : Int)⟩ := by
  subst h1
  subst h2
  subst h3
  rfl

/-- `F64.to_float_parts` on a bit pattern split into its sign,
exponent and significand fields `(s, e, f)`: the three behaviours of
the code (inf/NaN passthrough, denormal, normal). -/
theorem to_float_parts64_cases (s e f : Nat) (hs : s < 2) (he : e < 2 ^ 11)
    (hf : f < 2 ^ 52) :
    F64.to_float_parts (s * 2 ^ 63 + e * 2 ^ 52 + f) =
      if e = 2 ^ 11 - 1 then ⟨f, F64.EXP_INF_NAN, 1 - 2 * (s : Int)⟩
      else if e = 0 then ⟨2 * f, F64.EXP_MIN, 1 - 2 * (s : Int)⟩
      else ⟨2 ^ 53 + f, (e : Int) - F64.EXP_ADJUST, 1 - 2 * (s : Int)⟩ := by
  have hexp : ((s * 2 ^ 63 + e * 2 ^ 52 + f) >>> (53 - 1)) &&& mask 11 = e := by
    rw [mask_eq, Nat.shiftRight_eq_div_pow, Nat.and_pow_two_sub_one_eq_mod]
    omega
  have hsig : (s * 2 ^ 63 + e * 2 ^ 52 + f) &&& mask (53 - 1) = f := by
    rw [mask_eq, Nat.and_pow_two_sub_one_eq_mod]
    omega
  have hsgn : ((s * 2 ^ 63 + e * 2 ^ 52 + f) >>> (64 - 2)) &&& 2 = 2 * s := by
    have hdiv : (s * 2 ^ 63 + e * 2 ^ 52 + f) >>> (64 - 2) = 2 * s + e / 2 ^ 10 := by
      rw [Nat.shiftRight_eq_div_pow]
      omega
    rw [hdiv, and_two_of_lt hs (by omega)]
  rw [show F64.to_float_parts (s * 2 ^ 63 + e * 2 ^ 52 + f) =
        toFloatPartsCore 64 53 11 F64.EXP_ADJUST F64.EXP_INF_NAN
          (s * 2 ^ 63 + e * 2 ^ 52 + f) from rfl,
    toFloatPartsCore_eq 64 53 11 _ _ _ (2 * s) e f hsgn hexp hsig,
    show mask 11 = 2 ^ 11 - 1 from rfl]
  have hcast : ((2 * s : Nat) : Int) = 2 * (s : Int) := by push_cast; ring
  by_cases hinf : e = 2 ^ 11 - 1
  · rw [if_pos hinf, if_pos hinf, hcast]
  · rw [if_neg hinf, if_neg hinf]
    by_cases h0 : e = 0
    · subst h0
      rw [if_pos rfl]
      show FloatParts.mk ((f <<< 1) ||| (0 <<< 53)) ((0 : Nat) - F64.EXP_ADJUST) _ = _
      rw [Nat.zero_shiftLeft, Nat.or_zero, Nat.shiftLeft_eq, hcast]
      show FloatParts.mk (f * 2) (0 - F64.EXP_ADJUST) _ = _
      rw [show (0 : Int) - F64.EXP_ADJUST = F64.EXP_MIN from rfl,
        Nat.mul_comm f 2]
    · have hb : (e == 0) = false := by simp [h0]
      rw [hb]
      show FloatParts.mk ((f <<< 0) ||| (1 <<< 53)) ((e : Nat) - F64.EXP_ADJUST) _ = _
      rw [Nat.shiftLeft_zero, Nat.one_shiftLeft,
        or_two_pow_of_lt (by omega : f < 2 ^ 53), hcast, if_neg h0]

/-- `F32.to_float_parts` on a bit pattern split into its sign,
exponent and significand fields `(s, e, f)`: the three behaviours of
the code (inf/NaN passthrough, denormal, normal). -/
theorem to_float_parts32_cases (s e f : Nat) (hs : s < 2) (he : e < 2 ^ 8)
    (hf : f < 2 ^ 23) :
    F32.to_float_parts (s * 2 ^ 31 + e * 2 ^ 23 + f) =
      if e = 2 ^ 8 - 1 then ⟨f, F32.EXP_INF_NAN, 1 - 2 * (s : Int)⟩
      else if e = 0 then ⟨2 * f, F32.EXP_MIN, 1 - 2 * (s : Int)⟩
      else ⟨2 ^ 24 + f, (e : Int) - F32.EXP_ADJUST, 1 - 2 * (s : Int)⟩ := by
  have hexp : ((s * 2 ^ 31 + e * 2 ^ 23 + f) >>> (24 - 1)) &&& mask 8 = e := by
    rw [mask_eq, Nat.shiftRight_eq_div_pow, Nat.and_pow_two_sub_one_eq_mod]
    omega
  have hsig : (s * 2 ^ 31 + e * 2 ^ 23 + f) &&& mask (24 - 1) = f := by
    rw [mask_eq, Nat.and_pow_two_sub_one_eq_mod]
    omega
  have hsgn : ((s * 2 ^ 31 + e * 2 ^ 23 + f) >>> (32 - 2)) &&& 2 = 2 * s := by
    have hdiv : (s * 2 ^ 31 + e * 2 ^ 23 + f) >>> (32 - 2) = 2 * s + e / 2 ^ 7 := by
      rw [Nat.shiftRight_eq_div_pow]
      omega
    rw [hdiv, and_two_of_lt hs (by omega)]
  rw [show F32.to_float_parts (s * 2 ^ 31 + e * 2 ^ 23 + f) =
        toFloatPartsCore 32 24 8 F32.EXP_ADJUST F32.EXP_INF_NAN
          (s * 2 ^ 31 + e * 2 ^ 23 + f) from rfl,
    toFloatPartsCore_eq 32 24 8 _ _ _ (2 * s) e f hsgn hexp hsig,
    show mask 8 = 2 ^ 8 - 1 from rfl]
  have hcast : ((2 * s : Nat) : Int) = 2 * (s : Int) := by push_cast; ring
  by_cases hinf : e = 2 ^ 8 - 1
  · rw [if_pos hinf, if_pos hinf, hcast]
  · rw [if_neg hinf, if_neg hinf]
    by_cases h0 : e = 0
    · subst h0
      rw [if_pos rfl]
      show FloatParts.mk ((f <<< 1) ||| (0 <<< 24)) ((0 : Nat) - F32.EXP_ADJUST) _ = _
      rw [Nat.zero_shiftLeft, Nat.or_zero, Nat.shiftLeft_eq, hcast]
      show FloatParts.mk (f * 2) (0 - F32.EXP_ADJUST) _ = _
      rw [show (0 : Int) - F32.EXP_ADJUST = F32.EXP_MIN from rfl,
        Nat.mul_comm f 2]
    · have hb : (e == 0) = false := by simp [h0]
      rw [hb]
      show FloatParts.mk ((f <<< 0) ||| (1 <<< 24)) ((e : Nat) - F32.EXP_ADJUST) _ = _
      rw [Nat.shiftLeft_zero, Nat.one_shiftLeft,
        or_two_pow_of_lt (by omega : f < 2 ^ 24), hcast, if_neg h0]
theorem and_mask_lt (x b : Nat) : x &&& mask b < 2 ^ b := by
  rw [mask_eq, Nat.and_pow_two_sub_one_eq_mod]
  exact Nat.mod_lt _ (Nat.two_pow_pos b)

theorem xor_two_pow_of_lt {r n : Nat} (h : r < 2 ^ n) : r ^^^ 2 ^ n = 2 ^ n + r := by
  apply Nat.eq_of_testBit_eq
  intro j
  rcases Nat.lt_trichotomy j n with hj | hj | hj
  · rw [Nat.testBit_xor, Nat.testBit_two_pow_add_gt hj,
      Nat.testBit_two_pow_of_ne (Nat.ne_of_gt hj), Bool.xor_false]
  · subst hj
    rw [Nat.testBit_xor, Nat.testBit_two_pow_add_eq, Nat.testBit_lt_two_pow h,
      Nat.testBit_two_pow_self, Bool.false_xor, Bool.not_false]
  · have e2 : 2 ^ (n + 1) ≤ 2 ^ j := Nat.pow_le_pow_right (by omega) (by omega)
    have e1 : 2 ^ n + r < 2 ^ (n + 1) := by rw [Nat.pow_succ]; omega
    have e3 : r < 2 ^ j := by
      have := Nat.pow_le_pow_right (show 0 < 2 by omega) (Nat.le_of_lt hj)
      omega
    rw [Nat.testBit_xor, Nat.testBit_lt_two_pow e3,
      Nat.testBit_lt_two_pow (by omega : 2 ^ n + r < 2 ^ j),
      Nat.testBit_two_pow_of_ne (by omega : n ≠ j), Bool.xor_false]

theorem two_pow_add_xor_self {r n : Nat} (h : r < 2 ^ n) : (2 ^ n + r) ^^^ 2 ^ n = r := by
  rw [← xor_two_pow_of_lt h, Nat.xor_assoc, Nat.xor_self, Nat.xor_zero]

theorem negBits_eq {w s r : Nat} (hs : s < 2) (hr : r < 2 ^ (w - 1)) :
    negBits w (s * 2 ^ (w - 1) + r) = (1 - s) * 2 ^ (w - 1) + r := by
  unfold negBits
  rw [Nat.one_shiftLeft]
  interval_cases s
  · rw [Nat.zero_mul, Nat.zero_add, Nat.one_mul, xor_two_pow_of_lt hr]
  · rw [Nat.one_mul, Nat.sub_self, Nat.zero_mul, Nat.zero_add,
      two_pow_add_xor_self hr]

theorem bits64_split (bits : Nat) (h : bits < 2 ^ 64) :
    ∃ s e f, s < 2 ∧ e < 2 ^ 11 ∧ f < 2 ^ 52 ∧
      bits = s * 2 ^ 63 + e * 2 ^ 52 + f ∧
      (bits >>> 52) &&& mask 11 = e ∧ bits &&& mask 52 = f ∧
      bits.testBit 63 = decide (s = 1) := by
  refine ⟨bits / 2 ^ 63, bits / 2 ^ 52 % 2 ^ 11, bits % 2 ^ 52,
    by omega, by omega, by omega, by omega, ?_, ?_, ?_⟩
  · rw [mask_eq, Nat.shiftRight_eq_div_pow, Nat.and_pow_two_sub_one_eq_mod]
  · rw [mask_eq, Nat.and_pow_two_sub_one_eq_mod]
  · rw [Nat.testBit_to_div_mod, Nat.mod_eq_of_lt (by omega : bits / 2 ^ 63 < 2)]

theorem bits32_split (bits : Nat) (h : bits < 2 ^ 32) :
    ∃ s e f, s < 2 ∧ e < 2 ^ 8 ∧ f < 2 ^ 23 ∧
      bits = s * 2 ^ 31 + e * 2 ^ 23 + f ∧
      (bits >>> 23) &&& mask 8 = e ∧ bits &&& mask 23 = f ∧
      bits.testBit 31 = decide (s = 1) := by
  refine ⟨bits / 2 ^ 31, bits / 2 ^ 23 % 2 ^ 8, bits % 2 ^ 23,
    by omega, by omega, by omega, by omega, ?_, ?_, ?_⟩
  · rw [mask_eq, Nat.shiftRight_eq_div_pow, Nat.and_pow_two_sub_one_eq_mod]
  · rw [mask_eq, Nat.and_pow_two_sub_one_eq_mod]
  · rw [Nat.testBit_to_div_mod, Nat.mod_eq_of_lt (by omega : bits / 2 ^ 31 < 2)]
theorem to_float_parts64_sign (bits : Nat) (h : bits < 2 ^ 64) :
    (F64.to_float_parts bits).sign = if bits.testBit 63 then -1 else 1 := by
  obtain ⟨s, e, f, hs, he, hf, hb, hexp, hsig, htb⟩ := bits64_split bits h
  subst hb
  rw [to_float_parts64_cases s e f hs he hf, htb]
  interval_cases s <;> split_ifs <;> simp_all

theorem to_float_parts64_negBits (bits : Nat) (h : bits < 2 ^ 64) :
    F64.to_float_parts (negBits 64 bits) =
      ⟨(F64.to_float_parts bits).sigbits, (F64.to_float_parts bits).exp,
        -(F64.to_float_parts bits).sign⟩ := by
  obtain ⟨s, e, f, hs, he, hf, hb, hexp, hsig, htb⟩ := bits64_split bits h
  subst hb
  have hneg : negBits 64 (s * 2 ^ 63 + e * 2 ^ 52 + f) =
      (1 - s) * 2 ^ 63 + e * 2 ^ 52 + f := by
    have h1 : s * 2 ^ 63 + e * 2 ^ 52 + f = s * 2 ^ (64 - 1) + (e * 2 ^ 52 + f) := by
      ring_nf
    rw [h1, negBits_eq hs (by omega : e * 2 ^ 52 + f < 2 ^ (64 - 1))]
    ring_nf
  rw [hneg, to_float_parts64_cases (1 - s) e f (by omega) he hf,
    to_float_parts64_cases s e f hs he hf]
  interval_cases s <;> split_ifs <;> simp_all

theorem to_float_parts32_sign (bits : Nat) (h : bits < 2 ^ 32) :
    (F32.to_float_parts bits).sign = if bits.testBit 31 then -1 else 1 := by
  obtain ⟨s, e, f, hs, he, hf, hb, hexp, hsig, htb⟩ := bits32_split bits h
  subst hb
  rw [to_float_parts32_cases s e f hs he hf, htb]
  interval_cases s <;> split_ifs <;> simp_all

theorem to_float_parts32_negBits (bits : Nat) (h : bits < 2 ^ 32) :
    F32.to_float_parts (negBits 32 bits) =
      ⟨(F32.to_float_parts bits).sigbits, (F32.to_float_parts bits).exp,
        -(F32.to_float_parts bits).sign⟩ := by
  obtain ⟨s, e, f, hs, he, hf, hb, hexp, hsig, htb⟩ := bits32_split bits h
  subst hb
  have hneg : negBits 32 (s * 2 ^ 31 + e * 2 ^ 23 + f) =
      (1 - s) * 2 ^ 31 + e * 2 ^ 23 + f := by
    have h1 : s * 2 ^ 31 + e * 2 ^ 23 + f = s * 2 ^ (32 - 1) + (e * 2 ^ 23 + f) := by
      ring_nf
    rw [h1, negBits_eq hs (by omega : e * 2 ^ 23 + f < 2 ^ (32 - 1))]
    ring_nf
  rw [hneg, to_float_parts32_cases (1 - s) e f (by omega) he hf,
    to_float_parts32_cases s e f hs he hf]
  interval_cases s <;> split_ifs <;> simp_all
theorem val64_one : floatVal64 0x3FF0000000000000 = 1 := by
  have he : ((0x3FF0000000000000 : Nat) >>> 52) &&& mask 11 = 1023 := by decide
  have hf : (0x3FF0000000000000 : Nat) &&& mask 52 = 0 := by decide
  have hs : Nat.testBit 0x3FF0000000000000 63 = false := by decide
  simp only [floatVal64, he, hf, hs]
  norm_num

theorem val64_zero : floatVal64 0 = 0 := by
  have he : ((0 : Nat) >>> 52) &&& mask 11 = 0 := by decide
  have hf : (0 : Nat) &&& mask 52 = 0 := by decide
  simp only [floatVal64, he, hf]
  norm_num

theorem val64_negzero : floatVal64 (2 ^ 63) = 0 := by
  have he : (((2 : Nat) ^ 63) >>> 52) &&& mask 11 = 0 := by decide
  have hf : ((2 : Nat) ^ 63) &&& mask 52 = 0 := by decide
  simp only [floatVal64, he, hf]
  norm_num

theorem val32_zero : floatVal32 0 = 0 := by
  have he : (((0 : Nat)) >>> 23) &&& mask 8 = 0 := by decide
  have hf : (0 : Nat) &&& mask 23 = 0 := by decide
  simp only [floatVal32, he, hf]
  norm_num

theorem val32_negzero : floatVal32 (2 ^ 31) = 0 := by
  have he : (((2 : Nat) ^ 31) >>> 23) &&& mask 8 = 0 := by decide
  have hf : ((2 : Nat) ^ 31) &&& mask 23 = 0 := by decide
  simp only [floatVal32, he, hf]
  norm_num

theorem val64_denorm : floatVal64 (2 ^ 63 + 2 ^ 49) = -(1 / ((2 ^ 1025 : Nat) : ℚ)) := by
  have he : (((2 : Nat) ^ 63 + 2 ^ 49) >>> 52) &&& mask 11 = 0 := by decide
  have hf : ((2 : Nat) ^ 63 + 2 ^ 49) &&& mask 52 = 2 ^ 49 := by decide
  have hs : Nat.testBit (2 ^ 63 + 2 ^ 49) 63 = true := by decide
  simp only [floatVal64, he, hf, hs, if_pos rfl, if_true]
  push_cast
  rw [show (562949953421312 : ℚ) = 2 ^ 49 from by norm_num]
  rw [neg_one_mul, neg_div, neg_inj]
  rw [div_eq_div_iff (by positivity) (by positivity)]
  rw [one_mul, ← pow_add]

/-- Claim C1 (code_bug evidence): at the normalized input 1.0f64
(bit pattern 0x3FF0000000000000, whose exact IEEE value is 1), the code
returns (2^53, -52, +1), and the reconstruction sign × sigbits × 2^exp
equals 2, not the input value 1. -/
theorem C1_reconstruction_fails_at_one :
    floatVal64 0x3FF0000000000000 = 1 ∧
    F64.to_float_parts 0x3FF0000000000000 = ⟨2 ^ 53, -52, 1⟩ ∧
    reconQ (F64.to_float_parts 0x3FF0000000000000) = 2 ∧
    reconQ (F64.to_float_parts 0x3FF0000000000000) ≠ floatVal64 0x3FF0000000000000 := by
  have hr : reconQ (F64.to_float_parts 0x3FF0000000000000) = 2 := by
    rw [show F64.to_float_parts 0x3FF0000000000000 = ⟨2 ^ 53, -52, 1⟩ from by decide]
    simp only [reconQ]
    push_cast
    norm_num
  refine ⟨val64_one, by decide, hr, ?_⟩
  rw [hr, val64_one]
  norm_num

/-- Claim C2 (counterexample): for f64 the code's EXP_ADJUST is 1075,
which differs from the claimed formula value
(2^(NUM_EXP_BITS-1) - 1) - NUM_SIG_BITS + 1 = 971. -/
theorem C2_counterexample_f64 :
    F64.EXP_ADJUST = 1075 ∧
    (mask (F64.NUM_EXP_BITS - 1) : Int) - (F64.NUM_SIG_BITS : Int) + 1 = 971 ∧
    F64.EXP_ADJUST ≠ (mask (F64.NUM_EXP_BITS - 1) : Int) - (F64.NUM_SIG_BITS : Int) + 1 := by
  refine ⟨by decide, by decide, by decide⟩

/-- Claim C2 (amended): f32's EXP_ADJUST equals the claimed formula
(2^7 - 1) - 24 + 1 = 104, but f64's EXP_ADJUST is overridden to
(2^10 - 1) + 53 - 1 = 1075. -/
theorem C2_adjust_constants :
    F32.EXP_ADJUST = (mask (F32.NUM_EXP_BITS - 1) : Int) - (F32.NUM_SIG_BITS : Int) + 1 ∧
    F32.EXP_ADJUST = 104 ∧
    F64.EXP_ADJUST = (mask (F64.NUM_EXP_BITS - 1) : Int) + (F64.NUM_SIG_BITS : Int) - 1 ∧
    F64.EXP_ADJUST = 1075 := by
  refine ⟨by decide, by decide, by decide, by decide⟩

/-- Claim C3 (code_bug evidence): at the normalized inputs 1.0f64 and
1.0f32, bit NUM_SIG_BITS - 1 of the returned sigbits is 0; the code
sets bit NUM_SIG_BITS instead. -/
theorem C3_leading_bit_wrong_position :
    floatVal64 0x3FF0000000000000 = 1 ∧
    ((0x3FF0000000000000 : Nat) >>> 52) &&& mask 11 ≠ 0 ∧
    ((0x3FF0000000000000 : Nat) >>> 52) &&& mask 11 ≠ mask 11 ∧
    (F64.to_float_parts 0x3FF0000000000000).sigbits.testBit (F64.NUM_SIG_BITS - 1) = false ∧
    (F64.to_float_parts 0x3FF0000000000000).sigbits.testBit F64.NUM_SIG_BITS = true ∧
    (F32.to_float_parts 0x3F800000).sigbits.testBit (F32.NUM_SIG_BITS - 1) = false ∧
    (F32.to_float_parts 0x3F800000).sigbits.testBit F32.NUM_SIG_BITS = true := by
  refine ⟨val64_one, by decide, by decide, by decide, by decide, by decide, by decide⟩

/-- Claim C4 (counterexample): the denormal f64 input with bit pattern
2^51 (raw exponent field 0) yields sigbits = 2^52 whose bit
NUM_SIG_BITS - 1 = 52 is 1, not 0; likewise for the f32 denormal 2^22. -/
theorem C4_counterexample_denormal_top_bit :
    ((2 ^ 51 : Nat) >>> 52) &&& mask 11 = 0 ∧
    (F64.to_float_parts (2 ^ 51)).sigbits.testBit (F64.NUM_SIG_BITS - 1) = true ∧
    ((2 ^ 22 : Nat) >>> 23) &&& mask 8 = 0 ∧
    (F32.to_float_parts (2 ^ 22)).sigbits.testBit (F32.NUM_SIG_BITS - 1) = true := by
  refine ⟨by decide, by decide, by decide, by decide⟩

/-- Claim C6: double-precision concrete scenarios. The bit pattern
0x3FF0000000000000 is 1.0; the code returns (2^53, -52, +1). The bit
pattern 2^63 + 2^49 is -2^-1025 (a denormal); the code returns
(2^50, EXP_MIN, -1). -/
theorem C6_concrete_f64 :
    floatVal64 0x3FF0000000000000 = 1 ∧
    F64.to_float_parts 0x3FF0000000000000 = ⟨2 ^ 53, -52, 1⟩ ∧
    floatVal64 (2 ^ 63 + 2 ^ 49) = -(1 / ((2 ^ 1025 : Nat) : ℚ)) ∧
    F64.to_float_parts (2 ^ 63 + 2 ^ 49) = ⟨2 ^ 50, F64.EXP_MIN, -1⟩ := by
  refine ⟨val64_one, by decide, val64_denorm, by decide⟩

/-- Claim C7: positive zero decomposes to (0, EXP_MIN, +1) and negative
zero to (0, EXP_MIN, -1) for both widths; the zero patterns are the
ones whose IEEE value is 0. -/
theorem C7_zero_decomposition :
    F64.to_float_parts 0 = ⟨0, F64.EXP_MIN, 1⟩ ∧
    F64.to_float_parts (2 ^ 63) = ⟨0, F64.EXP_MIN, -1⟩ ∧
    F32.to_float_parts 0 = ⟨0, F32.EXP_MIN, 1⟩ ∧
    F32.to_float_parts (2 ^ 31) = ⟨0, F32.EXP_MIN, -1⟩ ∧
    floatVal64 0 = 0 ∧ floatVal64 (2 ^ 63) = 0 ∧
    floatVal32 0 = 0 ∧ floatVal32 (2 ^ 31) = 0 := by
  refine ⟨by decide, by decide, by decide, by decide,
    val64_zero, val64_negzero, val32_zero, val32_negzero⟩

/-- `toFloatPartsCheckedCore` with the right shifts discharged and the
bit-field extractions abstracted into hypotheses. -/
theorem toFloatPartsCheckedCore_eq (ws ns ne : Nat) (ea ei : Int)
    (bits sgn ex sg : Nat)
    (h1 : (bits >>> (ws - 2)) &&& 2 = sgn)
    (h2 : (bits >>> (ns - 1)) &&& mask ne = ex)
    (h3 : bits &&& mask (ns - 1) = sg)
    (hw2 : ws - 2 < ws) (hn1 : ns - 1 < ws) :
    toFloatPartsCheckedCore ws ns ne ea ei bits = do
      let sign ← checkedSub 8 1 ((sgn : Nat) : Int)
      if ex = mask ne then
        return ⟨sg, ei, sign⟩
      else
        let exp2 ← checkedSub 16 (ex : Int) ea
        let sigbits2 ← checkedShl ws sg (if ex == 0 then 1 else 0)
        let hi ← checkedShl ws (if ex == 0 then 0 else 1) ns
        return ⟨sigbits2 ||| hi, exp2, sign⟩ := by
  subst h1
  subst h2
  subst h3
  unfold toFloatPartsCheckedCore checkedShr
  rw [if_pos hw2, if_pos hn1]
  rfl

theorem to_float_parts64_checked_some (bits : Nat) (h : bits < 2 ^ 64) :
    F64.to_float_parts_checked bits = some (F64.to_float_parts bits) := by
  obtain ⟨s, e, f, hs, he, hf, hb, hexp, hsig, htb⟩ := bits64_split bits h
  subst hb
  have hsgn : ((s * 2 ^ 63 + e * 2 ^ 52 + f) >>> (64 - 2)) &&& 2 = 2 * s := by
    have hdiv : (s * 2 ^ 63 + e * 2 ^ 52 + f) >>> (64 - 2) = 2 * s + e / 2 ^ 10 := by
      rw [Nat.shiftRight_eq_div_pow]
      omega
    rw [hdiv, and_two_of_lt hs (by omega)]
  rw [show F64.to_float_parts_checked (s * 2 ^ 63 + e * 2 ^ 52 + f) =
        toFloatPartsCheckedCore 64 53 11 F64.EXP_ADJUST F64.EXP_INF_NAN
          (s * 2 ^ 63 + e * 2 ^ 52 + f) from rfl,
    toFloatPartsCheckedCore_eq 64 53 11 _ _ _ (2 * s) e f hsgn hexp hsig
      (by decide) (by decide),
    to_float_parts64_cases s e f hs he hf]
  have hsub8 : checkedSub 8 1 ((2 * s : Nat) : Int) = some (1 - 2 * (s : Int)) := by
    unfold checkedSub
    rw [if_pos (by push_cast; omega)]
    push_cast
    rfl
  rw [hsub8]
  simp only [Option.bind_eq_bind, Option.pure_def, Option.some_bind]
  rw [show mask 11 = 2 ^ 11 - 1 from rfl]
  by_cases hinf : e = 2 ^ 11 - 1
  · rw [if_pos hinf, if_pos hinf]
  · rw [if_neg hinf, if_neg hinf]
    have hsub16 : checkedSub 16 (e : Int) F64.EXP_ADJUST =
        some ((e : Int) - F64.EXP_ADJUST) := by
      unfold checkedSub
      rw [if_pos]
      rw [show F64.EXP_ADJUST = 1075 from by decide]
      constructor <;> push_cast <;> omega
    rw [hsub16]
    by_cases h0 : e = 0
    · subst h0
      have hshl1 : checkedShl 64 f (if ((0 : Nat) == 0) = true then 1 else 0) =
          some (2 * f) := by
        show checkedShl 64 f 1 = some (2 * f)
        unfold checkedShl
        rw [if_pos (by omega), Nat.shiftLeft_eq, Nat.mod_eq_of_lt (by omega),
          Nat.mul_comm]
      have hshl2 : checkedShl 64 (if ((0 : Nat) == 0) = true then 0 else 1) 53 =
          some 0 := by decide
      rw [hshl1, hshl2]
      simp only [Option.some_bind]
      simp only [if_true]
      rw [Nat.or_zero,
        show (((0 : Nat) : Int)) - F64.EXP_ADJUST = F64.EXP_MIN from by decide]
    · have hb2 : (e == 0) = false := by simp [h0]
      rw [hb2]
      have hshl1 : checkedShl 64 f (if (false = true) then 1 else 0) = some f := by
        show checkedShl 64 f 0 = some f
        unfold checkedShl
        rw [if_pos (by omega), Nat.shiftLeft_zero, Nat.mod_eq_of_lt (by omega)]
      have hshl2 : checkedShl 64 (if (false = true) then 0 else 1) 53 =
          some (2 ^ 53) := by decide
      rw [hshl1, hshl2]
      simp only [Option.some_bind]
      rw [if_neg h0, or_two_pow_of_lt (by omega : f < 2 ^ 53)]

theorem to_float_parts32_checked_some (bits : Nat) (h : bits < 2 ^ 32) :
    F32.to_float_parts_checked bits = some (F32.to_float_parts bits) := by
  obtain ⟨s, e, f, hs, he, hf, hb, hexp, hsig, htb⟩ := bits32_split bits h
  subst hb
  have hsgn : ((s * 2 ^ 31 + e * 2 ^ 23 + f) >>> (32 - 2)) &&& 2 = 2 * s := by
    have hdiv : (s * 2 ^ 31 + e * 2 ^ 23 + f) >>> (32 - 2) = 2 * s + e / 2 ^ 7 := by
      rw [Nat.shiftRight_eq_div_pow]
      omega
    rw [hdiv, and_two_of_lt hs (by omega)]
  rw [show F32.to_float_parts_checked (s * 2 ^ 31 + e * 2 ^ 23 + f) =
        toFloatPartsCheckedCore 32 24 8 F32.EXP_ADJUST F32.EXP_INF_NAN
          (s * 2 ^ 31 + e * 2 ^ 23 + f) from rfl,
    toFloatPartsCheckedCore_eq 32 24 8 _ _ _ (2 * s) e f hsgn hexp hsig
      (by decide) (by decide),
    to_float_parts32_cases s e f hs he hf]
  have hsub8 : checkedSub 8 1 ((2 * s : Nat) : Int) = some (1 - 2 * (s : Int)) := by
    unfold checkedSub
    rw [if_pos (by push_cast; omega)]
    push_cast
    rfl
  rw [hsub8]
  simp only [Option.bind_eq_bind, Option.pure_def, Option.some_bind]
  rw [show mask 8 = 2 ^ 8 - 1 from rfl]
  by_cases hinf : e = 2 ^ 8 - 1
  · rw [if_pos hinf, if_pos hinf]
  · rw [if_neg hinf, if_neg hinf]
    have hsub16 : checkedSub 16 (e : Int) F32.EXP_ADJUST =
        some ((e : Int) - F32.EXP_ADJUST) := by
      unfold checkedSub
      rw [if_pos]
      rw [show F32.EXP_ADJUST = 104 from by decide]
      constructor <;> push_cast <;> omega
    rw [hsub16]
    by_cases h0 : e = 0
    · subst h0
      have hshl1 : checkedShl 32 f (if ((0 : Nat) == 0) = true then 1 else 0) =
          some (2 * f) := by
        show checkedShl 32 f 1 = some (2 * f)
        unfold checkedShl
        rw [if_pos (by omega), Nat.shiftLeft_eq, Nat.mod_eq_of_lt (by omega),
          Nat.mul_comm]
      have hshl2 : checkedShl 32 (if ((0 : Nat) == 0) = true then 0 else 1) 24 =
          some 0 := by decide
      rw [hshl1, hshl2]
      simp only [Option.some_bind]
      simp only [if_true]
      rw [Nat.or_zero,
        show (((0 : Nat) : Int)) - F32.EXP_ADJUST = F32.EXP_MIN from by decide]
    · have hb2 : (e == 0) = false := by simp [h0]
      rw [hb2]
      have hshl1 : checkedShl 32 f (if (false = true) then 1 else 0) = some f := by
        show checkedShl 32 f 0 = some f
        unfold checkedShl
        rw [if_pos (by omega), Nat.shiftLeft_zero, Nat.mod_eq_of_lt (by omega)]
      have hshl2 : checkedShl 32 (if (false = true) then 0 else 1) 24 =
          some (2 ^ 24) := by decide
      rw [hshl1, hshl2]
      simp only [Option.some_bind]
      rw [if_neg h0, or_two_pow_of_lt (by omega : f < 2 ^ 24)]

/-- Claim C4 (amended): for every denormal input (raw exponent field 0),
bit NUM_SIG_BITS of the returned sigbits is 0 (the code's implicit-bit
position, one above the claimed NUM_SIG_BITS - 1) and the returned
exponent equals EXP_MIN, for both widths. -/
theorem C4_denormal_shape :
    (∀ bits : Nat, bits < 2 ^ 64 → (bits >>> 52) &&& mask 11 = 0 →
      (F64.to_float_parts bits).sigbits.testBit F64.NUM_SIG_BITS = false ∧
      (F64.to_float_parts bits).exp = F64.EXP_MIN) ∧
    (∀ bits : Nat, bits < 2 ^ 32 → (bits >>> 23) &&& mask 8 = 0 →
      (F32.to_float_parts bits).sigbits.testBit F32.NUM_SIG_BITS = false ∧
      (F32.to_float_parts bits).exp = F32.EXP_MIN) := by
  constructor
  · intro bits h hden
    obtain ⟨s, e, f, hs, he, hf, hb, hexp, hsig, htb⟩ := bits64_split bits h
    subst hb
    rw [hexp] at hden
    subst hden
    rw [to_float_parts64_cases s 0 f hs (by norm_num) hf,
      if_neg (by norm_num), if_pos rfl]
    exact ⟨Nat.testBit_lt_two_pow (show 2 * f < 2 ^ 53 by omega), rfl⟩
  · intro bits h hden
    obtain ⟨s, e, f, hs, he, hf, hb, hexp, hsig, htb⟩ := bits32_split bits h
    subst hb
    rw [hexp] at hden
    subst hden
    rw [to_float_parts32_cases s 0 f hs (by norm_num) hf,
      if_neg (by norm_num), if_pos rfl]
    exact ⟨Nat.testBit_lt_two_pow (show 2 * f < 2 ^ 24 by omega), rfl⟩

/-- Claim C4 (amended) witness at the denormal inputs 2^51 (f64) and
2^22 (f32). -/
theorem C4_denormal_shape_witness :
    ((F64.to_float_parts (2 ^ 51)).sigbits.testBit F64.NUM_SIG_BITS = false ∧
      (F64.to_float_parts (2 ^ 51)).exp = F64.EXP_MIN) ∧
    ((F32.to_float_parts (2 ^ 22)).sigbits.testBit F32.NUM_SIG_BITS = false ∧
      (F32.to_float_parts (2 ^ 22)).exp = F32.EXP_MIN) :=
  ⟨C4_denormal_shape.1 (2 ^ 51) (by decide) (by decide),
    C4_denormal_shape.2 (2 ^ 22) (by decide) (by decide)⟩

/-- Claim C5: when the raw exponent field is all-ones, the code returns
(raw significand, EXP_INF_NAN, sign) unchanged — no bias adjustment, no
implicit bit; sigbits is 0 exactly for infinities and the stored NaN
payload otherwise. -/
theorem C5_inf_nan_passthrough :
    (∀ bits : Nat, bits < 2 ^ 64 → (bits >>> 52) &&& mask 11 = mask 11 →
      F64.to_float_parts bits =
        ⟨bits &&& mask 52, F64.EXP_INF_NAN, if bits.testBit 63 then -1 else 1⟩ ∧
      (bits &&& mask 52 = 0 → (F64.to_float_parts bits).sigbits = 0) ∧
      (bits &&& mask 52 ≠ 0 → (F64.to_float_parts bits).sigbits ≠ 0)) ∧
    (∀ bits : Nat, bits < 2 ^ 32 → (bits >>> 23) &&& mask 8 = mask 8 →
      F32.to_float_parts bits =
        ⟨bits &&& mask 23, F32.EXP_INF_NAN, if bits.testBit 31 then -1 else 1⟩ ∧
      (bits &&& mask 23 = 0 → (F32.to_float_parts bits).sigbits = 0) ∧
      (bits &&& mask 23 ≠ 0 → (F32.to_float_parts bits).sigbits ≠ 0)) := by
  constructor
  · intro bits h hinf
    obtain ⟨s, e, f, hs, he, hf, hb, hexp, hsig, htb⟩ := bits64_split bits h
    subst hb
    rw [hexp] at hinf
    have hrec : F64.to_float_parts (s * 2 ^ 63 + e * 2 ^ 52 + f) =
        ⟨f, F64.EXP_INF_NAN, 1 - 2 * (s : Int)⟩ := by
      rw [to_float_parts64_cases s e f hs he hf,
        if_pos (by rw [hinf]; rfl)]
    refine ⟨?_, ?_, ?_⟩
    · rw [hrec, hsig, htb]
      interval_cases s <;> simp
    · intro h0
      rw [hsig] at h0
      rw [hrec]
      exact h0
    · intro h0
      rw [hsig] at h0
      rw [hrec]
      exact h0
  · intro bits h hinf
    obtain ⟨s, e, f, hs, he, hf, hb, hexp, hsig, htb⟩ := bits32_split bits h
    subst hb
    rw [hexp] at hinf
    have hrec : F32.to_float_parts (s * 2 ^ 31 + e * 2 ^ 23 + f) =
        ⟨f, F32.EXP_INF_NAN, 1 - 2 * (s : Int)⟩ := by
      rw [to_float_parts32_cases s e f hs he hf,
        if_pos (by rw [hinf]; rfl)]
    refine ⟨?_, ?_, ?_⟩
    · rw [hrec, hsig, htb]
      interval_cases s <;> simp
    · intro h0
      rw [hsig] at h0
      rw [hrec]
      exact h0
    · intro h0
      rw [hsig] at h0
      rw [hrec]
      exact h0

/-- Claim C5 witness at +infinity (f64) and a negative quiet NaN (f32). -/
theorem C5_inf_nan_passthrough_witness :
    (F64.to_float_parts 0x7FF0000000000000 =
        ⟨(0x7FF0000000000000 : Nat) &&& mask 52, F64.EXP_INF_NAN,
          if Nat.testBit 0x7FF0000000000000 63 then -1 else 1⟩ ∧
      ((0x7FF0000000000000 : Nat) &&& mask 52 = 0 →
        (F64.to_float_parts 0x7FF0000000000000).sigbits = 0) ∧
      ((0x7FF0000000000000 : Nat) &&& mask 52 ≠ 0 →
        (F64.to_float_parts 0x7FF0000000000000).sigbits ≠ 0)) ∧
    (F32.to_float_parts 0xFFC00001 =
        ⟨(0xFFC00001 : Nat) &&& mask 23, F32.EXP_INF_NAN,
          if Nat.testBit 0xFFC00001 31 then -1 else 1⟩ ∧
      ((0xFFC00001 : Nat) &&& mask 23 = 0 →
        (F32.to_float_parts 0xFFC00001).sigbits = 0) ∧
      ((0xFFC00001 : Nat) &&& mask 23 ≠ 0 →
        (F32.to_float_parts 0xFFC00001).sigbits ≠ 0)) :=
  ⟨C5_inf_nan_passthrough.1 0x7FF0000000000000 (by decide) (by decide),
    C5_inf_nan_passthrough.2 0xFFC00001 (by decide) (by decide)⟩

/-- Claim C8: for every finite input, decomposing the negated input
(sign bit flipped) yields the same sigbits and exp with the sign
negated, for both widths. -/
theorem C8_sign_roundtrip :
    (∀ bits : Nat, bits < 2 ^ 64 → (bits >>> 52) &&& mask 11 ≠ mask 11 →
      (F64.to_float_parts (negBits 64 bits)).sigbits = (F64.to_float_parts bits).sigbits ∧
      (F64.to_float_parts (negBits 64 bits)).exp = (F64.to_float_parts bits).exp ∧
      (F64.to_float_parts (negBits 64 bits)).sign = -(F64.to_float_parts bits).sign) ∧
    (∀ bits : Nat, bits < 2 ^ 32 → (bits >>> 23) &&& mask 8 ≠ mask 8 →
      (F32.to_float_parts (negBits 32 bits)).sigbits = (F32.to_float_parts bits).sigbits ∧
      (F32.to_float_parts (negBits 32 bits)).exp = (F32.to_float_parts bits).exp ∧
      (F32.to_float_parts (negBits 32 bits)).sign = -(F32.to_float_parts bits).sign) := by
  constructor
  · intro bits h hfin
    rw [to_float_parts64_negBits bits h]
    exact ⟨rfl, rfl, rfl⟩
  · intro bits h hfin
    rw [to_float_parts32_negBits bits h]
    exact ⟨rfl, rfl, rfl⟩

/-- Claim C8 witness at the finite inputs 1.0f64 and -2^-129 (f32). -/
theorem C8_sign_roundtrip_witness :
    ((F64.to_float_parts (negBits 64 0x3FF0000000000000)).sigbits =
        (F64.to_float_parts 0x3FF0000000000000).sigbits ∧
      (F64.to_float_parts (negBits 64 0x3FF0000000000000)).exp =
        (F64.to_float_parts 0x3FF0000000000000).exp ∧
      (F64.to_float_parts (negBits 64 0x3FF0000000000000)).sign =
        -(F64.to_float_parts 0x3FF0000000000000).sign) ∧
    ((F32.to_float_parts (negBits 32 0x80100000)).sigbits =
        (F32.to_float_parts 0x80100000).sigbits ∧
      (F32.to_float_parts (negBits 32 0x80100000)).exp =
        (F32.to_float_parts 0x80100000).exp ∧
      (F32.to_float_parts (negBits 32 0x80100000)).sign =
        -(F32.to_float_parts 0x80100000).sign) :=
  ⟨C8_sign_roundtrip.1 0x3FF0000000000000 (by decide) (by decide),
    C8_sign_roundtrip.2 0x80100000 (by decide) (by decide)⟩

/-- Claim C9: the decomposition is total — on every bit pattern of the
input type, the panic-checked model returns `some` of the value the
unchecked model computes; no operation fails, panics or traps. -/
theorem C9_totality :
    (∀ bits : Nat, bits < 2 ^ 64 →
      F64.to_float_parts_checked bits = some (F64.to_float_parts bits)) ∧
    (∀ bits : Nat, bits < 2 ^ 32 →
      F32.to_float_parts_checked bits = some (F32.to_float_parts bits)) :=
  ⟨to_float_parts64_checked_some, to_float_parts32_checked_some⟩

/-- Claim C9 witness at a signaling NaN pattern (f64) and a negative
infinity (f32). -/
theorem C9_totality_witness :
    F64.to_float_parts_checked 0x7FF0000000000001 =
      some (F64.to_float_parts 0x7FF0000000000001) ∧
    F32.to_float_parts_checked 0xFF800000 =
      some (F32.to_float_parts 0xFF800000) :=
  ⟨C9_totality.1 0x7FF0000000000001 (by decide),
    C9_totality.2 0xFF800000 (by decide)⟩

/-- Claim C10: for every bit pattern (finite or not) the returned sign
is exactly +1 when the IEEE sign bit is 0 and -1 when it is 1, never
anything else, and flipping the sign bit preserves sigbits and exp
while negating the sign. -/
theorem C10_sign_component :
    (∀ bits : Nat, bits < 2 ^ 64 →
      ((F64.to_float_parts bits).sign = if bits.testBit 63 then -1 else 1) ∧
      ((F64.to_float_parts bits).sign = 1 ∨ (F64.to_float_parts bits).sign = -1) ∧
      F64.to_float_parts (negBits 64 bits) =
        ⟨(F64.to_float_parts bits).sigbits, (F64.to_float_parts bits).exp,
          -(F64.to_float_parts bits).sign⟩) ∧
    (∀ bits : Nat, bits < 2 ^ 32 →
      ((F32.to_float_parts bits).sign = if bits.testBit 31 then -1 else 1) ∧
      ((F32.to_float_parts bits).sign = 1 ∨ (F32.to_float_parts bits).sign = -1) ∧
      F32.to_float_parts (negBits 32 bits) =
        ⟨(F32.to_float_parts bits).sigbits, (F32.to_float_parts bits).exp,
          -(F32.to_float_parts bits).sign⟩) := by
  constructor
  · intro bits h
    refine ⟨to_float_parts64_sign bits h, ?_, to_float_parts64_negBits bits h⟩
    rw [to_float_parts64_sign bits h]
    cases h63 : bits.testBit 63 <;> simp [h63]
  · intro bits h
    refine ⟨to_float_parts32_sign bits h, ?_, to_float_parts32_negBits bits h⟩
    rw [to_float_parts32_sign bits h]
    cases h31 : bits.testBit 31 <;> simp [h31]

/-- Claim C10 witness at a NaN (f64, sign bit set) and +infinity (f32). -/
theorem C10_sign_component_witness :
    (((F64.to_float_parts 0xFFF8000000000000).sign =
        if Nat.testBit 0xFFF8000000000000 63 then -1 else 1) ∧
      ((F64.to_float_parts 0xFFF8000000000000).sign = 1 ∨
        (F64.to_float_parts 0xFFF8000000000000).sign = -1) ∧
      F64.to_float_parts (negBits 64 0xFFF8000000000000) =
        ⟨(F64.to_float_parts 0xFFF8000000000000).sigbits,
          (F64.to_float_parts 0xFFF8000000000000).exp,
          -(F64.to_float_parts 0xFFF8000000000000).sign⟩) ∧
    (((F32.to_float_parts 0x7F800000).sign =
        if Nat.testBit 0x7F800000 31 then -1 else 1) ∧
      ((F32.to_float_parts 0x7F800000).sign = 1 ∨
        (F32.to_float_parts 0x7F800000).sign = -1) ∧
      F32.to_float_parts (negBits 32 0x7F800000) =
        ⟨(F32.to_float_parts 0x7F800000).sigbits,
          (F32.to_float_parts 0x7F800000).exp,
          -(F32.to_float_parts 0x7F800000).sign⟩) :=
  ⟨C10_sign_component.1 0xFFF8000000000000 (by decide),
    C10_sign_component.2 0x7F800000 (by decide)⟩
